import Mathlib

/-!
# Verification of the Pomodoro timer state machine (src/src/App.tsx)

The repository is a single React component.  Its logical core is a small
state machine over four pieces of component state (src/src/App.tsx:24-27):
`mode`, `timeLeft`, `isRunning`, `completedPomodoros`, together with an
effect hook (lines 54-71) that, after every change to `[isRunning,
timeLeft, mode]`, either arms the one-second interval (when running with
time left) or — when `timeLeft === 0` — auto-pauses and, in focus mode,
increments the completed-session counter.

Embedding conventions:
* JavaScript numbers holding whole seconds and counters are modelled as
  `Int` (so "never negative" is a real statement, not a typing artifact).
* Each user event handler (`handleModeChange`, `toggleTimer`,
  `resetTimer`) and each firing of the interval callback triggers the
  effect: `runEffect` is one evaluation of the effect body, and
  `runEffects` is the cascade the framework actually performs — the body
  runs once, and runs again if that run changed the dependency array
  `[isRunning, timeLeft, mode]` (the expiry branch pauses a running
  timer, and `isRunning` is a dependency, so an expiry while running is
  followed by a second expiry run).  A second run never changes the
  dependencies again (`runEffects_stable`), so two runs reach the fixed
  point.  The composition of a raw handler with `runEffects` is the
  user-visible operation, named after the specification's operations
  (`selectMode`, `toggleRunning`, `reset`, `tick`).
* The interval callback can only fire while the interval resource is
  armed, which the effect guarantees happens exactly when
  `isRunning && timeLeft > 0`; `tick` therefore carries that guard.
* The interval resource itself (armed/cleared by the effect's body and
  cleanup) is modelled separately by `SysState`, which counts live
  interval resources.
-/

/-- The three timer modes, from `type TimerMode` (src/src/App.tsx:3). -/
inductive TimerMode where
  | focus
  | shortBreak
  | longBreak
deriving DecidableEq, Repr

/-- Fixed interval durations in seconds, from `TIMER_DURATIONS`
(src/src/App.tsx:11-15): focus 25*60, shortBreak 5*60, longBreak 15*60. -/
def TIMER_DURATIONS : TimerMode → Int
  | TimerMode.focus => 25 * 60
  | TimerMode.shortBreak => 5 * 60
  | TimerMode.longBreak => 15 * 60

/-- The component state: `mode`, `timeLeft`, `isRunning`,
`completedPomodoros` (src/src/App.tsx:24-27). -/
structure TimerState where
  mode : TimerMode
  timeLeft : Int
  isRunning : Bool
  completedPomodoros : Int
deriving DecidableEq, Repr

/-- The initial component state (src/src/App.tsx:24-27): focus mode, full
focus duration, paused, zero completed sessions. -/
def initialState : TimerState :=
  { mode := TimerMode.focus
    timeLeft := TIMER_DURATIONS TimerMode.focus
    isRunning := false
    completedPomodoros := 0 }

/-- One evaluation of the effect body (src/src/App.tsx:54-64) as it acts
on the component state.  If `isRunning && timeLeft > 0` the body only
arms the interval (no state change, the resource is modelled by
`SysState` below); otherwise, if `timeLeft === 0`, it auto-pauses
(`setIsRunning(false)`) and, when `mode === 'focus'`, increments
`completedPomodoros`; otherwise it does nothing. -/
def runEffect (s : TimerState) : TimerState :=
  if s.isRunning = true ∧ 0 < s.timeLeft then s
  else if s.timeLeft = 0 then
    { s with
      isRunning := false
      completedPomodoros :=
        if s.mode = TimerMode.focus then s.completedPomodoros + 1
        else s.completedPomodoros }
  else s

/-- The effect's dependency array `[isRunning, timeLeft, mode]`
(src/src/App.tsx:71): after a render, the effect re-runs exactly when
this triple changed since its last run. -/
def effectDeps (s : TimerState) : Bool × Int × TimerMode :=
  (s.isRunning, s.timeLeft, s.mode)

/-- The effect evaluations one event triggers.  The body runs once; if
that run changed the dependency array — the expiry branch flips a
running `isRunning` to false, and `isRunning` is a dependency — the
cleanup runs and the body runs a second time (at which point the
dependencies are stable, `runEffects_stable`, because a repeated expiry
run only re-issues the `setIsRunning(false)` no-op and increments the
counter, which is not a dependency). -/
def runEffects (s : TimerState) : TimerState :=
  if effectDeps (runEffect s) = effectDeps s then runEffect s
  else runEffect (runEffect s)

/-- The raw `handleModeChange` handler (src/src/App.tsx:39-43): set the
new mode, reset the remaining time to the new mode's duration, pause. -/
def handleModeChange (newMode : TimerMode) (s : TimerState) : TimerState :=
  { s with mode := newMode, timeLeft := TIMER_DURATIONS newMode, isRunning := false }

/-- The raw `toggleTimer` handler (src/src/App.tsx:45-47): flip
`isRunning`. -/
def toggleTimer (s : TimerState) : TimerState :=
  { s with isRunning := !s.isRunning }

/-- The raw `resetTimer` handler (src/src/App.tsx:49-52): reset the
remaining time to the current mode's duration, pause. -/
def resetTimer (s : TimerState) : TimerState :=
  { s with timeLeft := TIMER_DURATIONS s.mode, isRunning := false }

/-- The spec's `selectMode` operation: the `handleModeChange` handler
followed by the effect evaluations it triggers. -/
def selectMode (newMode : TimerMode) (s : TimerState) : TimerState :=
  runEffects (handleModeChange newMode s)

/-- The spec's `toggleRunning` operation: the `toggleTimer` handler
followed by the effect evaluations it triggers. -/
def toggleRunning (s : TimerState) : TimerState :=
  runEffects (toggleTimer s)

/-- The spec's `reset` operation: the `resetTimer` handler followed by
the effect evaluations it triggers. -/
def reset (s : TimerState) : TimerState :=
  runEffects (resetTimer s)

/-- One firing of the interval callback (src/src/App.tsx:56-58,
`setTimeLeft((prev) => prev - 1)`) followed by the effect evaluations it
triggers.  The callback can fire only while the interval is armed,
i.e. while `isRunning && timeLeft > 0`; otherwise a tick is a no-op
because no interval resource exists. -/
def tick (s : TimerState) : TimerState :=
  if s.isRunning = true ∧ 0 < s.timeLeft then
    runEffects { s with timeLeft := s.timeLeft - 1 }
  else s

/-- A single user-visible transition of the timer: one of the three user
operations or one interval tick. -/
inductive Step : TimerState → TimerState → Prop where
  | selectMode (m : TimerMode) (s : TimerState) : Step s (selectMode m s)
  | toggleRunning (s : TimerState) : Step s (toggleRunning s)
  | reset (s : TimerState) : Step s (reset s)
  | tick (s : TimerState) : Step s (tick s)

/-- States reachable from the initial state by user operations and
ticks. -/
inductive Reachable : TimerState → Prop where
  | init : Reachable initialState
  | step {s t : TimerState} : Reachable s → Step s t → Reachable t

/-- Every mode's duration is strictly positive. -/
theorem TIMER_DURATIONS_pos (m : TimerMode) : 0 < TIMER_DURATIONS m := by
  cases m <;> decide

/-- An effect evaluation never changes the mode. -/
theorem runEffect_mode (s : TimerState) : (runEffect s).mode = s.mode := by
  unfold runEffect
  split
  · rfl
  · split <;> rfl

/-- An effect evaluation never changes the remaining time. -/
theorem runEffect_timeLeft (s : TimerState) : (runEffect s).timeLeft = s.timeLeft := by
  unfold runEffect
  split
  · rfl
  · split <;> rfl

/-- An effect evaluation never decreases the completed-session counter. -/
theorem runEffect_completed_le (s : TimerState) :
    s.completedPomodoros ≤ (runEffect s).completedPomodoros := by
  unfold runEffect
  split
  · exact le_refl _
  · split
    · split <;> simp
    · exact le_refl _

/-- With nonzero remaining time an effect evaluation changes no state:
the first branch only arms the interval and the expiry branch is not
taken. -/
theorem runEffect_of_ne (s : TimerState) (h : s.timeLeft ≠ 0) : runEffect s = s := by
  unfold runEffect
  split
  · rfl
  · rfl

/-- With zero remaining time an effect evaluation takes the expiry
branch: pause, and in focus mode increment the counter. -/
theorem runEffect_of_zero (s : TimerState) (h : s.timeLeft = 0) :
    runEffect s =
      { s with
        isRunning := false
        completedPomodoros :=
          if s.mode = TimerMode.focus then s.completedPomodoros + 1
          else s.completedPomodoros } := by
  unfold runEffect
  have hno : ¬ (s.isRunning = true ∧ 0 < s.timeLeft) := by
    rintro ⟨-, hpos⟩
    rw [h] at hpos
    exact lt_irrefl 0 hpos
  rw [if_neg hno, if_pos h]

/-- An effect evaluation from a paused state never changes the
dependency array: the expiry branch's `setIsRunning(false)` is a no-op
there, and the counter is not a dependency. -/
theorem runEffect_deps_of_paused (s : TimerState) (hr : s.isRunning = false) :
    effectDeps (runEffect s) = effectDeps s := by
  by_cases h : s.timeLeft = 0
  · rw [runEffect_of_zero s h]
    simp [effectDeps, hr]
  · rw [runEffect_of_ne s h]

/-- Two effect runs always reach the dependency fixed point: a further
run of the body would not change the dependency array again, so the
cascade in `runEffects` is exhaustive. -/
theorem runEffects_stable (s : TimerState) :
    effectDeps (runEffect (runEffects s)) = effectDeps (runEffects s) := by
  have key : ∀ u : TimerState,
      effectDeps (runEffect (runEffect u)) = effectDeps (runEffect u) := by
    intro u
    by_cases h : u.timeLeft = 0
    · apply runEffect_deps_of_paused
      rw [runEffect_of_zero u h]
    · rw [runEffect_of_ne u h, runEffect_of_ne u h]
  unfold runEffects
  split
  · exact key s
  · exact key (runEffect s)

/-- The effect cascade never changes the mode. -/
theorem runEffects_mode (s : TimerState) : (runEffects s).mode = s.mode := by
  unfold runEffects
  split
  · exact runEffect_mode s
  · rw [runEffect_mode, runEffect_mode]

/-- The effect cascade never changes the remaining time. -/
theorem runEffects_timeLeft (s : TimerState) : (runEffects s).timeLeft = s.timeLeft := by
  unfold runEffects
  split
  · exact runEffect_timeLeft s
  · rw [runEffect_timeLeft, runEffect_timeLeft]

/-- The effect cascade never decreases the completed-session counter. -/
theorem runEffects_completed_le (s : TimerState) :
    s.completedPomodoros ≤ (runEffects s).completedPomodoros := by
  unfold runEffects
  split
  · exact runEffect_completed_le s
  · exact le_trans (runEffect_completed_le s) (runEffect_completed_le (runEffect s))

/-- With nonzero remaining time the effect cascade changes no state: the
single run arms or does nothing, and the dependencies are unchanged. -/
theorem runEffects_of_ne (s : TimerState) (h : s.timeLeft ≠ 0) : runEffects s = s := by
  unfold runEffects
  rw [runEffect_of_ne s h]
  simp

/-- Expiry from a paused state: the dependency array does not change, so
the body runs exactly once — pause (a no-op) and, in focus mode, one
counter increment. -/
theorem runEffects_of_zero_paused (s : TimerState) (h : s.timeLeft = 0)
    (hr : s.isRunning = false) :
    runEffects s =
      { s with
        isRunning := false
        completedPomodoros :=
          if s.mode = TimerMode.focus then s.completedPomodoros + 1
          else s.completedPomodoros } := by
  unfold runEffects
  rw [if_pos (runEffect_deps_of_paused s hr)]
  exact runEffect_of_zero s h

/-- Expiry from a running state: the first run pauses (changing the
`isRunning` dependency), so the body runs a second time and the expiry
branch fires twice — in focus mode the counter gains 2. -/
theorem runEffects_of_zero_running (s : TimerState) (h : s.timeLeft = 0)
    (hr : s.isRunning = true) :
    runEffects s =
      { s with
        isRunning := false
        completedPomodoros :=
          if s.mode = TimerMode.focus then s.completedPomodoros + 2
          else s.completedPomodoros } := by
  have hne : ¬ (effectDeps (runEffect s) = effectDeps s) := by
    rw [runEffect_of_zero s h]
    simp [effectDeps, hr]
  unfold runEffects
  rw [if_neg hne, runEffect_of_zero s h, runEffect_of_zero _ (by simp [h])]
  by_cases hm : s.mode = TimerMode.focus
  · simp [hm]
    omega
  · simp [hm]

/-- While the timer is running with more than one second left, a tick
just decrements the remaining time. -/
theorem tick_dec (s : TimerState) (hrun : s.isRunning = true) (h1 : 1 < s.timeLeft) :
    tick s = { s with timeLeft := s.timeLeft - 1 } := by
  unfold tick
  rw [if_pos ⟨hrun, lt_trans one_pos h1⟩]
  exact runEffects_of_ne _ (by simp; omega)

/-- The final tick of a running interval: the decrement reaches zero,
the effect pauses the timer, and — because the pause changes the
`isRunning` dependency — the expiry branch runs a second time, so in
focus mode the counter gains 2. -/
theorem tick_last (s : TimerState) (hrun : s.isRunning = true) (h1 : s.timeLeft = 1) :
    tick s =
      { s with
        timeLeft := 0
        isRunning := false
        completedPomodoros :=
          s.completedPomodoros + (if s.mode = TimerMode.focus then 2 else 0) } := by
  unfold tick
  rw [if_pos ⟨hrun, by rw [h1]; exact one_pos⟩]
  rw [runEffects_of_zero_running { s with timeLeft := s.timeLeft - 1 } (by simp [h1]) hrun]
  simp [h1]
  split <;> simp

/-- Running a full interval down from `n > 0` seconds: after exactly `n`
ticks the remaining time is 0, the timer has auto-paused, and the
counter has gained 2 in focus mode (the expiry branch runs twice, once
while running and once after the pause changes the `isRunning`
dependency) and 0 otherwise. -/
theorem run_to_zero (n : Nat) :
    ∀ s : TimerState, s.isRunning = true → s.timeLeft = (n : Int) → 0 < n →
      tick^[n] s =
        { s with
          timeLeft := 0
          isRunning := false
          completedPomodoros :=
            s.completedPomodoros + (if s.mode = TimerMode.focus then 2 else 0) } := by
  induction n with
  | zero => intro s _ _ h; exact absurd h (by decide)
  | succ k ih =>
    intro s hrun htime _
    rcases Nat.eq_zero_or_pos k with hk | hk
    · subst hk
      rw [Function.iterate_one]
      exact tick_last s hrun (by rw [htime]; norm_num)
    · have hstep : tick s = { s with timeLeft := (k : Int) } := by
        have hdec := tick_dec s hrun (by rw [htime]; exact_mod_cast Nat.succ_lt_succ hk)
        rw [hdec, htime]
        have hcast : ((k + 1 : Nat) : Int) - 1 = (k : Int) := by push_cast; ring
        rw [hcast]
      rw [Function.iterate_succ_apply, hstep]
      exact ih { s with timeLeft := (k : Int) } hrun rfl hk

/-- Scenario A evaluated against the code: starting the initial focus
interval and ticking 1500 times ends at zero seconds, paused — but with
TWO completed sessions, because the expiry effect run pauses the timer,
`isRunning` is in the dependency array, and the re-triggered effect run
takes the expiry branch again. -/
theorem scenarioA :
    tick^[1500] (toggleRunning initialState) =
      { mode := TimerMode.focus, timeLeft := 0, isRunning := false,
        completedPomodoros := 2 } := by
  have h0 : toggleRunning initialState =
      { mode := TimerMode.focus, timeLeft := 1500, isRunning := true,
        completedPomodoros := 0 } := by decide
  rw [h0]
  have h1 := run_to_zero 1500
    { mode := TimerMode.focus, timeLeft := 1500, isRunning := true,
      completedPomodoros := 0 } rfl (by norm_num) (by norm_num)
  rw [h1]
  decide

/-- C1: the code evaluated at the claim's own scenario (the failing
input): `toggleRunning()` then 1500 ticks from the initial state gives
`remainingSeconds == 0` and `isRunning == false` as claimed, but
`completedFocusSessions == 2`, not 1 — the expiry while running fires
the effect's `timeLeft === 0` branch twice (the pause changes the
`isRunning` dependency and re-runs the effect).  A further
`toggleRunning()` at zero raises it to 4.  The claim (and the spec's
"exactly 1 per Focus interval, never more than once per interval
instance") states the evident intent of a session counter; the code's
double increment is the slip. -/
theorem claim1_code_bug :
    (tick^[1500] (toggleRunning initialState)).timeLeft = 0 ∧
    (tick^[1500] (toggleRunning initialState)).isRunning = false ∧
    (tick^[1500] (toggleRunning initialState)).completedPomodoros = 2 ∧
    (toggleRunning (tick^[1500] (toggleRunning initialState))).completedPomodoros = 4 := by
  refine ⟨?_, ?_, ?_, ?_⟩ <;> rw [scenarioA] <;> decide

/-- C4: `selectMode(m)` always yields mode `m`, a full interval of `m`'s
duration, a paused timer, and an unchanged session counter. -/
theorem claim4_selectMode_spec (m : TimerMode) (s : TimerState) :
    (selectMode m s).mode = m ∧
    (selectMode m s).timeLeft = TIMER_DURATIONS m ∧
    (selectMode m s).isRunning = false ∧
    (selectMode m s).completedPomodoros = s.completedPomodoros := by
  have hpos := TIMER_DURATIONS_pos m
  have hne : (handleModeChange m s).timeLeft ≠ 0 := by
    simp [handleModeChange]
    omega
  unfold selectMode
  rw [runEffects_of_ne _ hne]
  simp [handleModeChange]

/-- Every reset lands in the paused, full-interval state of the current
mode (shared by C6). -/
theorem reset_eq (u : TimerState) :
    reset u = { u with timeLeft := TIMER_DURATIONS u.mode, isRunning := false } := by
  have hpos := TIMER_DURATIONS_pos u.mode
  unfold reset resetTimer
  apply runEffects_of_ne
  simp
  omega

/-- C6: `reset()` restores the current mode's full duration and pauses,
and doing it twice is the same as doing it once. -/
theorem claim6_reset_spec (s : TimerState) :
    (reset s).timeLeft = TIMER_DURATIONS s.mode ∧
    (reset s).isRunning = false ∧
    reset (reset s) = reset s := by
  refine ⟨?_, ?_, ?_⟩
  · rw [reset_eq]
  · rw [reset_eq]
  · rw [reset_eq s, reset_eq]

/-- C7: running a short-break interval to completion (300 ticks from a
full, running short break) leaves the completed-session counter at its
prior value. -/
theorem claim7_shortBreak_completion (s : TimerState)
    (hm : s.mode = TimerMode.shortBreak) (ht : s.timeLeft = 300)
    (hr : s.isRunning = true) :
    (tick^[300] s).completedPomodoros = s.completedPomodoros := by
  have h := run_to_zero 300 s hr (by rw [ht]; norm_num) (by norm_num)
  rw [h]
  simp [hm]

/-- C7 witness at a concrete short-break state with a prior count of 7. -/
theorem claim7_witness :
    (tick^[300] ({ mode := TimerMode.shortBreak, timeLeft := 300, isRunning := true,
                   completedPomodoros := 7 } : TimerState)).completedPomodoros = 7 :=
  claim7_shortBreak_completion _ rfl rfl rfl

/-- C10, counterexample to the claim's "+1": toggling at zero in focus
mode from the paused state with counter 5 yields counter 7, not 6 — the
expiry branch fires once while `isRunning` is true and once more after
the effect re-runs on the `isRunning` flip. -/
theorem claim10_counterexample :
    (toggleRunning ({ mode := TimerMode.focus, timeLeft := 0, isRunning := false,
                      completedPomodoros := 5 } : TimerState)).completedPomodoros = 7 ∧
    ¬ (toggleRunning ({ mode := TimerMode.focus, timeLeft := 0, isRunning := false,
                        completedPomodoros := 5 } : TimerState)).completedPomodoros =
        5 + 1 := by
  refine ⟨by decide, by decide⟩

/-- C10, amended: toggling from any state with zero seconds left
bounces straight back to paused with zero seconds left, and in focus
mode the expiry branch re-runs and the counter gains 2 when the timer
was paused (the toggle turns `isRunning` on, and the expiry branch runs
once with it true and a second time after flipping it back), or 1 when
it was already running; either way toggling at zero is not a pure no-op
on the state. -/
theorem claim10_toggle_at_zero (s : TimerState) (h : s.timeLeft = 0) :
    (toggleRunning s).isRunning = false ∧
    (toggleRunning s).timeLeft = 0 ∧
    (s.mode = TimerMode.focus →
       (toggleRunning s).completedPomodoros =
         s.completedPomodoros + (if s.isRunning = true then 1 else 2) ∧
       toggleRunning s ≠ s) := by
  have hz : (toggleTimer s).timeLeft = 0 := h
  unfold toggleRunning
  cases hb : s.isRunning with
  | true =>
    have hru : (toggleTimer s).isRunning = false := by simp [toggleTimer, hb]
    rw [runEffects_of_zero_paused _ hz hru]
    refine ⟨rfl, h, fun hm => ⟨by simp [toggleTimer, hm, hb], ?_⟩⟩
    intro heq
    have hc := congrArg TimerState.completedPomodoros heq
    simp [toggleTimer, hm] at hc
  | false =>
    have hru : (toggleTimer s).isRunning = true := by simp [toggleTimer, hb]
    rw [runEffects_of_zero_running _ hz hru]
    refine ⟨rfl, h, fun hm => ⟨by simp [toggleTimer, hm, hb], ?_⟩⟩
    intro heq
    have hc := congrArg TimerState.completedPomodoros heq
    simp [toggleTimer, hm] at hc

/-- C10 witness at a concrete paused focus state with zero seconds left
and a prior count of 5. -/
theorem claim10_witness :
    (toggleRunning ({ mode := TimerMode.focus, timeLeft := 0, isRunning := false,
                      completedPomodoros := 5 } : TimerState)).isRunning = false ∧
    (toggleRunning ({ mode := TimerMode.focus, timeLeft := 0, isRunning := false,
                      completedPomodoros := 5 } : TimerState)).timeLeft = 0 ∧
    ((({ mode := TimerMode.focus, timeLeft := 0, isRunning := false,
         completedPomodoros := 5 } : TimerState)).mode = TimerMode.focus →
       (toggleRunning ({ mode := TimerMode.focus, timeLeft := 0, isRunning := false,
                         completedPomodoros := 5 } : TimerState)).completedPomodoros =
         ({ mode := TimerMode.focus, timeLeft := 0, isRunning := false,
            completedPomodoros := 5 } : TimerState).completedPomodoros +
           (if ({ mode := TimerMode.focus, timeLeft := 0, isRunning := false,
                  completedPomodoros := 5 } : TimerState).isRunning = true then 1
            else 2) ∧
       toggleRunning ({ mode := TimerMode.focus, timeLeft := 0, isRunning := false,
                        completedPomodoros := 5 } : TimerState) ≠
         ({ mode := TimerMode.focus, timeLeft := 0, isRunning := false,
            completedPomodoros := 5 } : TimerState)) :=
  claim10_toggle_at_zero _ rfl

/-- The remaining-time invariant: between 0 and the current mode's
duration. -/
def timerInvariant (s : TimerState) : Prop :=
  0 ≤ s.timeLeft ∧ s.timeLeft ≤ TIMER_DURATIONS s.mode

/-- Every single transition preserves the remaining-time invariant. -/
theorem timerInvariant_step {s t : TimerState} (h : timerInvariant s)
    (hst : Step s t) : timerInvariant t := by
  obtain ⟨h0, hD⟩ := h
  cases hst with
  | selectMode m s =>
    show timerInvariant (selectMode m s)
    unfold timerInvariant selectMode
    rw [runEffects_timeLeft, runEffects_mode]
    have hpos := TIMER_DURATIONS_pos m
    simp [handleModeChange]
    omega
  | toggleRunning s =>
    show timerInvariant (toggleRunning s)
    unfold timerInvariant toggleRunning
    rw [runEffects_timeLeft, runEffects_mode]
    simp only [toggleTimer]
    exact ⟨h0, hD⟩
  | reset s =>
    show timerInvariant (reset s)
    unfold timerInvariant reset
    rw [runEffects_timeLeft, runEffects_mode]
    have hpos := TIMER_DURATIONS_pos s.mode
    simp [resetTimer]
    omega
  | tick s =>
    show timerInvariant (tick s)
    unfold tick
    split
    · next hg =>
      unfold timerInvariant
      rw [runEffects_timeLeft, runEffects_mode]
      obtain ⟨-, hpos⟩ := hg
      simp only []
      constructor
      · simp
        omega
      · simp
        omega
    · exact ⟨h0, hD⟩

/-- C2: in every reachable state the durations are the three fixed
constants and the remaining time lies between 0 and the current mode's
duration; since every operation maps reachable states to reachable
states, the invariant also holds after each of `selectMode`,
`toggleRunning`, `reset` and `tick` — in particular no tick makes the
remaining time negative. -/
theorem claim2_remaining_in_range (s : TimerState) (h : Reachable s) :
    (TIMER_DURATIONS TimerMode.focus = 1500 ∧
     TIMER_DURATIONS TimerMode.shortBreak = 300 ∧
     TIMER_DURATIONS TimerMode.longBreak = 900) ∧
    0 ≤ s.timeLeft ∧ s.timeLeft ≤ TIMER_DURATIONS s.mode := by
  refine ⟨⟨rfl, rfl, rfl⟩, ?_⟩
  induction h with
  | init => exact ⟨by decide, by decide⟩
  | step hr hst ih => exact timerInvariant_step ih hst

/-- C2 witness: the invariant at the (reachable) initial state. -/
theorem claim2_witness :
    (TIMER_DURATIONS TimerMode.focus = 1500 ∧
     TIMER_DURATIONS TimerMode.shortBreak = 300 ∧
     TIMER_DURATIONS TimerMode.longBreak = 900) ∧
    0 ≤ initialState.timeLeft ∧
    initialState.timeLeft ≤ TIMER_DURATIONS initialState.mode :=
  claim2_remaining_in_range initialState Reachable.init

/-- A single transition never decreases the completed-session counter. -/
theorem step_completed_le {s t : TimerState} (hst : Step s t) :
    s.completedPomodoros ≤ t.completedPomodoros := by
  cases hst with
  | selectMode m s =>
    show s.completedPomodoros ≤ (selectMode m s).completedPomodoros
    unfold selectMode
    exact runEffects_completed_le _
  | toggleRunning s =>
    show s.completedPomodoros ≤ (toggleRunning s).completedPomodoros
    unfold toggleRunning
    exact runEffects_completed_le _
  | reset s =>
    show s.completedPomodoros ≤ (reset s).completedPomodoros
    unfold reset
    exact runEffects_completed_le _
  | tick s =>
    show s.completedPomodoros ≤ (tick s).completedPomodoros
    unfold tick
    split
    · exact runEffects_completed_le _
    · exact le_refl _

/-- C3: along any sequence of operations from a reachable state the
completed-session counter never decreases. -/
theorem claim3_completed_monotone (s t : TimerState) (hs : Reachable s)
    (h : Relation.ReflTransGen Step s t) :
    s.completedPomodoros ≤ t.completedPomodoros := by
  induction h with
  | refl => exact le_refl _
  | tail hab hbc ih => exact le_trans ih (step_completed_le hbc)

/-- C3 witness: a one-operation sequence (a toggle) from the initial
state. -/
theorem claim3_witness :
    initialState.completedPomodoros ≤ (toggleRunning initialState).completedPomodoros :=
  claim3_completed_monotone initialState (toggleRunning initialState) Reachable.init
    (Relation.ReflTransGen.single (Step.toggleRunning initialState))

/-- The full system state: the component state together with the number
of live repeating-interval resources.  `intervalRef`
(src/src/App.tsx:28) stores the id of the most recently created
interval; the effect cleanup (src/src/App.tsx:66-70) cancels it. -/
structure SysState where
  timer : TimerState
  liveIntervals : Nat
deriving DecidableEq, Repr

/-- How many interval resources one effect evaluation leaves armed: the
body calls `window.setInterval` exactly when `isRunning && timeLeft > 0`
(src/src/App.tsx:55-58), and in exactly that case the final state still
satisfies the condition (the expiry branch, which changes the state, is
in the exclusive `else` and never arms). -/
def effectLive (s : TimerState) : Nat :=
  if s.isRunning = true ∧ 0 < s.timeLeft then 1 else 0

/-- One event on the full system: the component state evolves by the
operation `f`; the effect cleanup cancels the interval held in
`intervalRef` (cancelling an already-cancelled or absent id is
harmless), and the effect body re-arms according to the new state. -/
def sysEvent (f : TimerState → TimerState) (p : SysState) : SysState :=
  { timer := f p.timer
    liveIntervals := (p.liveIntervals - 1) + effectLive (f p.timer) }

/-- Unmounting the component: only the effect cleanup runs, cancelling
the interval held in `intervalRef`; nothing is re-armed. -/
def teardown (p : SysState) : SysState :=
  { timer := p.timer, liveIntervals := p.liveIntervals - 1 }

/-- Mounting: the initial state, with the initial effect run arming
according to it (the initial state is paused, so nothing is armed). -/
def sysInit : SysState :=
  { timer := initialState, liveIntervals := effectLive initialState }

/-- A system transition: any of the four operations, applied together
with the effect's cleanup/re-arm cycle. -/
inductive SysStep : SysState → SysState → Prop where
  | selectMode (m : TimerMode) (p : SysState) : SysStep p (sysEvent (selectMode m) p)
  | toggleRunning (p : SysState) : SysStep p (sysEvent toggleRunning p)
  | reset (p : SysState) : SysStep p (sysEvent reset p)
  | tick (p : SysState) : SysStep p (sysEvent tick p)

/-- System states reachable from mount. -/
inductive SysReachable : SysState → Prop where
  | init : SysReachable sysInit
  | step {p q : SysState} : SysReachable p → SysStep p q → SysReachable q

/-- An effect evaluation arms at most one interval. -/
theorem effectLive_le_one (s : TimerState) : effectLive s ≤ 1 := by
  unfold effectLive
  split
  · exact le_refl 1
  · exact Nat.zero_le 1

/-- An event keeps the live-interval count synchronised with the armed
condition of the resulting state. -/
theorem sysEvent_live (f : TimerState → TimerState) (p : SysState)
    (h : p.liveIntervals = effectLive p.timer) :
    (sysEvent f p).liveIntervals = effectLive ((sysEvent f p).timer) := by
  have h1 : p.liveIntervals ≤ 1 := by
    rw [h]
    exact effectLive_le_one p.timer
  show (p.liveIntervals - 1) + effectLive (f p.timer) = effectLive (f p.timer)
  omega

/-- In every reachable system state the live-interval count equals the
armed condition of the current component state. -/
theorem sysReachable_live (p : SysState) (h : SysReachable p) :
    p.liveIntervals = effectLive p.timer := by
  induction h with
  | init => rfl
  | step hr hst ih => cases hst <;> exact sysEvent_live _ _ ih

/-- C5: in every reachable system state at most one interval resource is
live; a live interval exists only while `isRunning` with time left (so
it is created only then), the count is zero whenever `isRunning` is
false (in particular whenever a mode change or pause has run), and
teardown always leaves zero live intervals — no duplicate or
overlapping tickers. -/
theorem claim5_interval_discipline (p : SysState) (h : SysReachable p) :
    p.liveIntervals ≤ 1 ∧
    (p.liveIntervals = 1 → p.timer.isRunning = true ∧ 0 < p.timer.timeLeft) ∧
    (p.timer.isRunning = false → p.liveIntervals = 0) ∧
    (teardown p).liveIntervals = 0 := by
  have key := sysReachable_live p h
  have hle := effectLive_le_one p.timer
  refine ⟨by omega, ?_, ?_, ?_⟩
  · intro h1
    rw [key] at h1
    unfold effectLive at h1
    by_contra hc
    rw [if_neg] at h1
    · exact absurd h1 (by norm_num)
    · intro hcond
      exact hc hcond
  · intro hstop
    rw [key]
    unfold effectLive
    rw [if_neg]
    rintro ⟨hrun, -⟩
    rw [hstop] at hrun
    exact Bool.false_ne_true hrun
  · show p.liveIntervals - 1 = 0
    omega

/-- C5 witness: the freshly mounted system state is reachable. -/
theorem claim5_witness :
    sysInit.liveIntervals ≤ 1 ∧
    (sysInit.liveIntervals = 1 → sysInit.timer.isRunning = true ∧ 0 < sysInit.timer.timeLeft) ∧
    (sysInit.timer.isRunning = false → sysInit.liveIntervals = 0) ∧
    (teardown sysInit).liveIntervals = 0 :=
  claim5_interval_discipline sysInit SysReachable.init

/-- `totalTime` (src/src/App.tsx:30): the current mode's duration. -/
def totalTime (s : TimerState) : Int := TIMER_DURATIONS s.mode

/-- `progress` (src/src/App.tsx:31): `1 - timeLeft / totalTime`, with
the JavaScript real-number division modelled exactly in `ℚ`. -/
def progress (s : TimerState) : ℚ :=
  1 - (s.timeLeft : ℚ) / (totalTime s : ℚ)

/-- C8: the snapshot's derived values satisfy
`totalSeconds = duration(mode)` and
`progressFraction = 1 - remainingSeconds / totalSeconds`; the divisor is
strictly positive for every mode, and under the remaining-time invariant
the fraction lies in `[0, 1]`. -/
theorem claim8_progress_range (s : TimerState) (h0 : 0 ≤ s.timeLeft)
    (hD : s.timeLeft ≤ TIMER_DURATIONS s.mode) :
    totalTime s = TIMER_DURATIONS s.mode ∧
    0 < totalTime s ∧
    progress s = 1 - (s.timeLeft : ℚ) / (totalTime s : ℚ) ∧
    0 ≤ progress s ∧ progress s ≤ 1 := by
  have hpos : 0 < totalTime s := TIMER_DURATIONS_pos s.mode
  have hposQ : (0 : ℚ) < (totalTime s : ℚ) := by exact_mod_cast hpos
  have hDQ : (s.timeLeft : ℚ) ≤ (totalTime s : ℚ) := by
    exact_mod_cast hD
  have h0Q : (0 : ℚ) ≤ (s.timeLeft : ℚ) := by exact_mod_cast h0
  refine ⟨rfl, hpos, rfl, ?_, ?_⟩
  · have hfrac : (s.timeLeft : ℚ) / (totalTime s : ℚ) ≤ 1 := by
      rw [div_le_one hposQ]
      exact hDQ
    unfold progress
    linarith
  · have hfrac : 0 ≤ (s.timeLeft : ℚ) / (totalTime s : ℚ) :=
      div_nonneg h0Q (le_of_lt hposQ)
    unfold progress
    linarith

/-- C8 witness at the initial state. -/
theorem claim8_witness :
    totalTime initialState = TIMER_DURATIONS initialState.mode ∧
    0 < totalTime initialState ∧
    progress initialState =
      1 - (initialState.timeLeft : ℚ) / (totalTime initialState : ℚ) ∧
    0 ≤ progress initialState ∧ progress initialState ≤ 1 :=
  claim8_progress_range initialState (by decide) (by decide)

/-- `String.prototype.padStart(targetLength, pad)` for a one-character
pad: prepend copies of the pad character until the target length is
reached (src/src/App.tsx:36 uses `.padStart(2, '0')`). -/
def padStart (t : String) (targetLength : Nat) (c : Char) : String :=
  if targetLength ≤ t.length then t
  else String.mk (List.replicate (targetLength - t.length) c) ++ t

/-- `formatTime` (src/src/App.tsx:33-37): minutes are
`Math.floor(seconds / 60)` (flooring division), seconds are
`seconds % 60` (the JavaScript remainder, truncating), each rendered in
decimal, padded to two characters with '0', and joined by ":". -/
def formatTime (seconds : Int) : String :=
  padStart (toString (Int.fdiv seconds 60)) 2 '0' ++ ":" ++
    padStart (toString (Int.tmod seconds 60)) 2 '0'

/-- Stated from the spec's words: a two-digit, zero-padded decimal
field. -/
def twoDigits (k : Nat) : String :=
  String.mk [Char.ofNat (48 + k / 10), Char.ofNat (48 + k % 10)]

/-- Stated from the spec's words: `MM:SS` with two-digit zero-padded
minutes (`seconds div 60`) and seconds (`seconds mod 60`). -/
def mmss (n : Nat) : String :=
  twoDigits (n / 60) ++ ":" ++ twoDigits (n % 60)

/-- Decimal rendering of a number below 100, padded to two characters,
is exactly its two-digit zero-padded form. -/
theorem pad_two_digits : ∀ k : Nat, k < 100 →
    padStart (toString ((k : Int))) 2 '0' = twoDigits k := by
  decide

/-- C9: for every second count up to the largest duration, the rendered
text is the spec's `MM:SS` two-digit zero-padded format; in particular
65 renders as "01:05" and 0 renders as "00:00". -/
theorem claim9_format_mmss :
    (∀ n : Nat, n ≤ 1500 → formatTime (n : Int) = mmss n) ∧
    formatTime 65 = "01:05" ∧ formatTime 0 = "00:00" := by
  refine ⟨?_, by decide, by decide⟩
  intro n hn
  have h1 : Int.fdiv (n : Int) 60 = ((n / 60 : Nat) : Int) := by
    have h := Int.ofNat_fdiv n 60
    simpa using h.symm
  have h2 : Int.tmod (n : Int) 60 = ((n % 60 : Nat) : Int) := by
    have h := Int.ofNat_tmod n 60
    simpa using h.symm
  unfold formatTime mmss
  rw [h1, h2, pad_two_digits (n / 60) (by omega), pad_two_digits (n % 60) (by omega)]

/-- C9 witness: the format theorem applied at 65 seconds. -/
theorem claim9_witness : formatTime ((65 : Nat) : Int) = mmss 65 :=
  claim9_format_mmss.1 65 (by norm_num)
